import Mathlib

set_option maxRecDepth 100000

/-!
# Verification of the jasco2txt spectroscopy-file decoder

Shallow embedding of `src/jasco2txt_gui.py` (class `JascoConverter`): the
text-likelihood classifier `_is_text_file`, the delimited-text parser
`_parse_as_text`, the OLE-container point-stream decoder `read_jws_file`,
and the header synthesizer / output writer `convert_to_txt`.

Modelling conventions:
* Python `float` (IEEE-754 binary64) values are modelled by `PyFloat`:
  either NaN, a signed infinity, or an exact rational.  Every float32 value
  stored in a container stream is a dyadic rational, hence exactly
  representable; the arithmetic this program performs on floats
  (`i * deltax`, comparisons, `max`/`min`) is exact on the inputs the
  claims are about, so the rational model agrees with binary64 there.
  The sign of `-0.0` is dropped (`-0.0 == 0.0` in Python; the sign is
  observable only in output formatting, which no claim exercises).
* Threshold comparisons such as `count / n > 0.7` are modelled over `ℚ`
  with the literal rational (`7/10`).  The binary64 constants `0.7`, `0.2`,
  `0.5` differ from these rationals by < 2⁻⁵³ relative error, while the
  compared quotients are rationals with denominator ≤ the sample size, so
  the strict comparisons decide identically.
* Byte strings are `List Nat` (each entry a byte value); Python text
  strings are `List Char` at the processing level.
* The OLE library (`olefile`) is modelled by its documented interface:
  a container is a list of named streams; `isOleFile` is modelled by
  whether the `File.ole` field is `some`.
-/

/-- A Python `float` value: NaN, a signed infinity, or an exact rational. -/
inductive PyFloat : Type where
  | nan : PyFloat
  | inf (neg : Bool) : PyFloat
  | val (q : ℚ) : PyFloat
  deriving DecidableEq, Repr

/-- `math.isnan`. -/
def PyFloat.isNaNF : PyFloat → Bool
  | .nan => true
  | _ => false

/-- Python `x == 0.0` (true for both `0.0` and `-0.0`; false for NaN/inf). -/
def PyFloat.isZeroF : PyFloat → Bool
  | .val q => q = 0
  | _ => false

/-- Python `a > b` on floats: any comparison with NaN is false. -/
def pyGt : PyFloat → PyFloat → Bool
  | .nan, _ => false
  | _, .nan => false
  | .inf n1, .inf n2 => !n1 && n2
  | .inf n1, .val _ => !n1
  | .val _, .inf n2 => n2
  | .val a, .val b => b < a

/-- Python `a < b` on floats: any comparison with NaN is false. -/
def pyLt : PyFloat → PyFloat → Bool
  | .nan, _ => false
  | _, .nan => false
  | .inf n1, .inf n2 => n1 && !n2
  | .inf n1, .val _ => n1
  | .val _, .inf n2 => !n2
  | .val a, .val b => a < b

/-- Python `i * x` for an `int` `i` and a float `x` (used for `i * deltax`;
the rational case is exact in binary64 for all values this program meets). -/
def PyFloat.mulNat (n : Nat) : PyFloat → PyFloat
  | .nan => .nan
  | .inf neg => if n = 0 then .nan else .inf neg
  | .val q => .val (mkRat ((n : ℤ) * q.num) q.den)

/-- Decode a 32-bit word as an IEEE-754 binary32 value
(`struct.unpack('<f', ...)` after assembling the little-endian word). -/
def decodeF32 (w : Nat) : PyFloat :=
  let sign : ℕ := w / 2 ^ 31 % 2
  let ex : ℕ := w / 2 ^ 23 % 2 ^ 8
  let man : ℕ := w % 2 ^ 23
  let sgn : ℤ := if sign = 1 then -1 else 1
  if ex = 255 then
    if man = 0 then .inf (sign = 1) else .nan
  else if ex = 0 then .val (mkRat (sgn * man) (2 ^ 149))
  else .val (mkRat (sgn * ((2 ^ 23 + man) * 2 ^ ex)) (2 ^ 150))

/-- Byte strings: one natural number per byte. -/
abbrev Bytes := List Nat

/-- Assemble the little-endian 32-bit word starting at offset `off`. -/
def wordAt (bs : Bytes) (off : Nat) : Nat :=
  bs.getD off 0 + 256 * bs.getD (off + 1) 0 + 65536 * bs.getD (off + 2) 0 +
    16777216 * bs.getD (off + 3) 0

/-- `[struct.unpack('<f', data[i*4:i*4+4])[0] for i in range(len(data)//4)]`:
decode a stream as packed little-endian float32 values; trailing bytes
(when the length is not a multiple of 4) are ignored by the `range`. -/
def decodeF32Stream (bs : Bytes) : List PyFloat :=
  (List.range (bs.length / 4)).map fun i => decodeF32 (wordAt bs (4 * i))

/-- Generic-stream decode: interleaved (x, y) float32 pairs, 8 bytes per
pair (`read_jws_file`, lines 89-96). -/
def decodePairs (bs : Bytes) : List (PyFloat × PyFloat) :=
  (List.range (bs.length / 8)).map fun i =>
    (decodeF32 (wordAt bs (8 * i)), decodeF32 (wordAt bs (8 * i + 4)))

/-- Little-endian encoding of a 32-bit word to four bytes (how a
well-formed container stores one float32 value). -/
def encodeF32 (w : Nat) : Bytes :=
  [w % 256, w / 256 % 256, w / 65536 % 256, w / 16777216 % 256]

/-! ## Python string primitives (on `List Char`) -/

/-- The ASCII whitespace characters stripped by `str.strip()` /
split on by `str.split()`. -/
def isPyWs (c : Char) : Bool :=
  c = ' ' || c = '\t' || c = '\n' || c = '\r' || c = '\x0b' || c = '\x0c'

/-- `str.strip()`. -/
def pyStripL (cs : List Char) : List Char :=
  ((cs.dropWhile isPyWs).reverse.dropWhile isPyWs).reverse

/-- `str.split(sep)` for a one-character separator: keeps empty fields. -/
def splitOnChar (sep : Char) : List Char → List (List Char)
  | [] => [[]]
  | c :: rest =>
    match splitOnChar sep rest with
    | [] => [[]]
    | r :: rs => if c = sep then [] :: r :: rs else (c :: r) :: rs

/-- Helper for `str.split()` (no separator): accumulate the current token. -/
def splitWsAux : List Char → List Char → List (List Char)
  | [], acc => if acc.isEmpty then [] else [acc.reverse]
  | c :: rest, acc =>
    if isPyWs c then
      if acc.isEmpty then splitWsAux rest [] else acc.reverse :: splitWsAux rest []
    else splitWsAux rest (c :: acc)

/-- `str.split()` with no separator: split on runs of whitespace,
dropping empty fields. -/
def splitWsL (cs : List Char) : List (List Char) :=
  splitWsAux cs []

/-- `str.split(sep, 1)` for a one-character separator: at most one split,
at the first occurrence. -/
def splitChar1 (sep : Char) (cs : List Char) : List (List Char) :=
  let pre := cs.takeWhile (fun c => c ≠ sep)
  let post := cs.dropWhile (fun c => c ≠ sep)
  match post with
  | [] => [pre]
  | _ :: t => [pre, t]

/-- `str.split(None, 1)`: strip leading whitespace, take the first
whitespace-run-delimited token, keep the rest (with its trailing
whitespace) after skipping the separating run.  Empty result for
all-whitespace input, as in Python. -/
def splitNone1 (cs : List Char) : List (List Char) :=
  let cs1 := cs.dropWhile isPyWs
  let tok := cs1.takeWhile (fun c => !isPyWs c)
  let rest := (cs1.dropWhile (fun c => !isPyWs c)).dropWhile isPyWs
  if tok.isEmpty then []
  else if rest.isEmpty then [tok] else [tok, rest]

/-- `str.splitlines()` terminator set (the ASCII/Latin-1/Unicode line
boundaries recognised by Python). -/
def isPyNl (c : Char) : Bool :=
  c = '\n' || c = '\r' || c = '\x0b' || c = '\x0c' ||
  c = '\x1c' || c = '\x1d' || c = '\x1e' || c = '\u0085' ||
  c = '\u2028' || c = '\u2029'

/-- `str.splitlines()`: `\r\n` is a single boundary; no empty final line
for a trailing terminator; `[]` for the empty string. -/
def pySplitlines : List Char → List (List Char)
  | [] => []
  | '\r' :: '\n' :: rest => [] :: pySplitlines rest
  | c :: rest =>
    if isPyNl c then [] :: pySplitlines rest
    else
      match pySplitlines rest with
      | [] => [c :: []]
      | l :: ls => (c :: l) :: ls

/-- Text-mode reads (`open(..., 'r')`) use universal newlines:
`\r\n` and `\r` are translated to `\n`. -/
def normNl : List Char → List Char
  | [] => []
  | '\r' :: '\n' :: rest => '\n' :: normNl rest
  | '\r' :: rest => '\n' :: normNl rest
  | c :: rest => c :: normNl rest

/-! ## Python `float(str)` parsing

Modelled grammar (after stripping whitespace): optional sign, then
`inf`/`infinity`/`nan` (case-insensitive) or a decimal literal
`digits [. digits] [(e|E) [sign] digits]` with at least one mantissa
digit.  The numeric value is modelled exactly (see header note); digit
group underscores and non-ASCII digits, which CPython also accepts, are
outside the model. -/

/-- Consume an optional leading `+`/`-`; `true` means negative. -/
def parseSign : List Char → Bool × List Char
  | '-' :: rest => (true, rest)
  | '+' :: rest => (false, rest)
  | cs => (false, cs)

/-- Decimal digit string to number (digits already validated). -/
def digitsVal (ds : List Char) : Nat :=
  ds.foldl (fun a c => 10 * a + (c.toNat - 48)) 0

/-- The exact rational `± m * 10^(e - f)` of a decimal literal with
mantissa digits `m`, exponent `e` and `f` fraction digits. -/
def decValRat (neg : Bool) (m : ℕ) (e : ℤ) (f : ℕ) : ℚ :=
  let sgn : ℤ := if neg then -1 else 1
  let ee : ℤ := e - f
  if 0 ≤ ee then mkRat (sgn * (m * 10 ^ ee.toNat : ℕ)) 1
  else mkRat (sgn * m) (10 ^ (-ee).toNat)

/-- `float(s)` on a character list: `none` models `ValueError`. -/
def pyFloatL? (cs0 : List Char) : Option PyFloat :=
  let cs := pyStripL cs0
  let (neg, cs1) := parseSign cs
  let low := cs1.map Char.toLower
  if low = ['i', 'n', 'f'] || low = ['i', 'n', 'f', 'i', 'n', 'i', 't', 'y'] then
    some (.inf neg)
  else if low = ['n', 'a', 'n'] then some .nan
  else
    let d1 := cs1.takeWhile Char.isDigit
    let r1 := cs1.dropWhile Char.isDigit
    let d2 := match r1 with
      | '.' :: t => t.takeWhile Char.isDigit
      | _ => []
    let r2 := match r1 with
      | '.' :: t => t.dropWhile Char.isDigit
      | _ => r1
    if d1.isEmpty && d2.isEmpty then none
    else
      let m := digitsVal (d1 ++ d2)
      match r2 with
      | [] => some (.val (decValRat neg m 0 d2.length))
      | e :: r3 =>
        if e = 'e' || e = 'E' then
          let (eneg, r4) := parseSign r3
          let ed := r4.takeWhile Char.isDigit
          let r5 := r4.dropWhile Char.isDigit
          if ed.isEmpty || !r5.isEmpty then none
          else
            let ev : ℤ := if eneg then -(digitsVal ed : ℤ) else (digitsVal ed : ℤ)
            some (.val (decValRat neg m ev d2.length))
        else none

/-! ## Input files and the text-likelihood classifier -/

/-- An OLE compound container as `olefile` exposes it: `listdir()` entries,
each a stream path (list of path segments) with its payload bytes. -/
structure OleFile : Type where
  entries : List (List String × Bytes)

/-- `ole.openstream(name).read()` for a top-level stream, as `Option`. -/
def OleFile.streamBytes (o : OleFile) (name : String) : Option Bytes :=
  (o.entries.find? (fun e => e.1 = [name])).map (fun e => e.2)

/-- `ole.exists(name)` for a top-level stream name. -/
def OleFile.existsStream (o : OleFile) (name : String) : Bool :=
  (o.streamBytes name).isSome

/-- An input file as the decoder observes it: its path, the raw bytes, the
text-mode view (UTF-8, `errors='ignore'`), whether the OLE signature check
succeeds (and if so the container), and whether reads raise `IOError`.
The byte/text views are independent fields of the model; concrete
instances are built consistently. -/
structure File : Type where
  path : List Char
  ioError : Bool
  bytes : Bytes
  text : List Char
  ole : Option OleFile

/-- `filepath.lower().split('.')[-1]`. -/
def fileExt (f : File) : List Char :=
  (splitOnChar '.' (f.path.map Char.toLower)).getLastD []

/-- The plain-text extension whitelist of `read_jws_file`. -/
def textExts : List (List Char) :=
  [['t', 'x', 't'], ['c', 's', 'v'], ['d', 'a', 't'], ['a', 's', 'c']]

/-- A byte counted by `_is_text_file`: printable ASCII (32-126) or
tab/newline/carriage-return (9, 10, 13). -/
def isTextByte (b : Nat) : Bool :=
  (32 ≤ b && b ≤ 126) || b = 9 || b = 10 || b = 13

/-- `JascoConverter._is_text_file`: sample the first 1024 bytes; empty
sample (or any exception, via the bare `except`) means "not text";
otherwise text iff the texty fraction strictly exceeds 0.7.
`mkRat textChars len > mkRat 7 10` is the source comparison
`text_chars / len(chunk) > 0.7` with both sides exact (see header note). -/
def is_text_file (f : File) : Bool :=
  if f.ioError then false
  else
    let chunk := f.bytes.take 1024
    if chunk.isEmpty then false
    else mkRat (chunk.filter isTextByte).length 1 > mkRat (7 * chunk.length) 10

/-! ## The delimited-text parser `_parse_as_text` -/

/-- Delimiter choice of `_parse_as_text` (lines 130-135): tab if the
stripped line has one, else comma if present, else whitespace runs. -/
def lineFields (s : List Char) : List (List Char) :=
  if s.contains '\t' then splitOnChar '\t' s
  else if s.contains ',' then splitOnChar ',' s
  else splitWsL s

/-- One line of `_parse_as_text` (lines 126-143): strip; skip empty and
`#`/`%` comment lines; split by the first applicable delimiter (tab,
else comma, else whitespace runs); emit the first two fields when both
parse as floats, otherwise skip the line. -/
def linePointL? (line : List Char) : Option (PyFloat × PyFloat) :=
  let s := pyStripL line
  if s.isEmpty then none
  else if s.headD ' ' = '#' || s.headD ' ' = '%' then none
  else
    match lineFields s with
    | p0 :: p1 :: _ =>
      match pyFloatL? p0, pyFloatL? p1 with
      | some x, some y => some (x, y)
      | _, _ => none
    | _ => none

/-- The line loop of `_parse_as_text`: invalid lines are skipped and the
loop continues. -/
def parseTextLines (ls : List (List Char)) : List (PyFloat × PyFloat) :=
  ls.filterMap linePointL?

/-- The lines `readlines()` yields from the text view (universal-newline
translation; line terminators are immaterial because every line is
stripped before use). -/
def fileLines (f : File) : List (List Char) :=
  splitOnChar '\n' (normNl f.text)

/-- `JascoConverter._parse_as_text`: an open/read error or an empty point
list becomes `ValueError("Could not parse file: <path> - <reason>")`;
the inner "No valid data points found in file" is re-wrapped by the
outer handler of the same function. -/
def parse_as_text (f : File) : Except (List Char) (List (PyFloat × PyFloat)) :=
  if f.ioError then
    .error ("Could not parse file: ".data ++ f.path ++ " - I/O error".data)
  else
    let points := parseTextLines (fileLines f)
    if points.isEmpty then
      .error ("Could not parse file: ".data ++ f.path ++
        " - No valid data points found in file".data)
    else .ok points

/-! ## Byte-string decoding (`bytes.decode`) -/

/-- A UTF-8 continuation byte. -/
def contByte (b : Nat) : Bool := 128 ≤ b && b < 192

/-- Strict UTF-8 decoding (`raw.decode("utf-8")`): `none` models
`UnicodeDecodeError`; overlong encodings, surrogates and out-of-range
code points are rejected. -/
def utf8Dec? : List Nat → Option (List Char)
  | [] => some []
  | b :: rest =>
    if b < 128 then (utf8Dec? rest).map (fun t => Char.ofNat b :: t)
    else if b < 194 then none
    else if b < 224 then
      match rest with
      | c1 :: r2 =>
        if contByte c1 then
          (utf8Dec? r2).map (fun t => Char.ofNat ((b - 192) * 64 + (c1 - 128)) :: t)
        else none
      | [] => none
    else if b < 240 then
      match rest with
      | c1 :: c2 :: r3 =>
        if contByte c1 && contByte c2 then
          let cp := (b - 224) * 4096 + (c1 - 128) * 64 + (c2 - 128)
          if cp < 2048 || (55296 ≤ cp && cp < 57344) then none
          else (utf8Dec? r3).map (fun t => Char.ofNat cp :: t)
        else none
      | _ => none
    else if b < 245 then
      match rest with
      | c1 :: c2 :: c3 :: r4 =>
        if contByte c1 && contByte c2 && contByte c3 then
          let cp := (b - 240) * 262144 + (c1 - 128) * 4096 + (c2 - 128) * 64 + (c3 - 128)
          if cp < 65536 || 1114111 < cp then none
          else (utf8Dec? r4).map (fun t => Char.ofNat cp :: t)
        else none
      | _ => none
    else none

/-- Worker for `utf8DecIgnore`; the fuel (initially the byte count)
bounds the number of decoding steps, each of which consumes at least one
byte. -/
def utf8DecIgnoreGo : Nat → List Nat → List Char
  | 0, _ => []
  | _, [] => []
  | fuel + 1, b :: rest =>
    if b < 128 then Char.ofNat b :: utf8DecIgnoreGo fuel rest
    else if b < 194 then utf8DecIgnoreGo fuel rest
    else if b < 224 then
      match rest with
      | c1 :: r2 =>
        if contByte c1 then
          Char.ofNat ((b - 192) * 64 + (c1 - 128)) :: utf8DecIgnoreGo fuel r2
        else utf8DecIgnoreGo fuel rest
      | [] => []
    else if b < 240 then
      match rest with
      | c1 :: c2 :: r3 =>
        if contByte c1 && contByte c2 then
          let cp := (b - 224) * 4096 + (c1 - 128) * 64 + (c2 - 128)
          if cp < 2048 || (55296 ≤ cp && cp < 57344) then utf8DecIgnoreGo fuel rest
          else Char.ofNat cp :: utf8DecIgnoreGo fuel r3
        else utf8DecIgnoreGo fuel rest
      | _ => utf8DecIgnoreGo fuel rest
    else if b < 245 then
      match rest with
      | c1 :: c2 :: c3 :: r4 =>
        if contByte c1 && contByte c2 && contByte c3 then
          let cp := (b - 240) * 262144 + (c1 - 128) * 4096 + (c2 - 128) * 64 + (c3 - 128)
          if cp < 65536 || 1114111 < cp then utf8DecIgnoreGo fuel rest
          else Char.ofNat cp :: utf8DecIgnoreGo fuel r4
        else utf8DecIgnoreGo fuel rest
      | _ => utf8DecIgnoreGo fuel rest
    else utf8DecIgnoreGo fuel rest

/-- UTF-8 decoding with `errors='ignore'`: like `utf8Dec?` but an
invalid position drops one byte and resumes (a faithful model for the
ASCII payloads the claims exercise; CPython may skip a whole malformed
sequence at once).  Every step consumes a byte, so `bs.length` fuel is
never exhausted. -/
def utf8DecIgnore (bs : List Nat) : List Char :=
  utf8DecIgnoreGo bs.length bs

/-- Little-endian UTF-16 code units from a byte string; `none` on odd
length (truncated data). -/
def utf16UnitsLE : List Nat → Option (List Nat)
  | [] => some []
  | [_] => none
  | lo :: hi :: rest => (utf16UnitsLE rest).map (fun t => (lo + 256 * hi) :: t)

/-- Big-endian UTF-16 code units from a byte string. -/
def utf16UnitsBE : List Nat → Option (List Nat)
  | [] => some []
  | [_] => none
  | hi :: lo :: rest => (utf16UnitsBE rest).map (fun t => (lo + 256 * hi) :: t)

/-- Combine UTF-16 code units, pairing surrogates; `none` on a lone or
misordered surrogate. -/
def utf16Combine : List Nat → Option (List Char)
  | [] => some []
  | u :: rest =>
    if u < 55296 || 57344 ≤ u then (utf16Combine rest).map (fun t => Char.ofNat u :: t)
    else if u < 56320 then
      match rest with
      | u2 :: rest2 =>
        if 56320 ≤ u2 && u2 < 57344 then
          (utf16Combine rest2).map
            (fun t => Char.ofNat (65536 + (u - 55296) * 1024 + (u2 - 56320)) :: t)
        else none
      | [] => none
    else none

/-- `raw.decode("utf-16")`: honour a BOM if present (stripping it),
default to little-endian without one. -/
def utf16Dec? (bs : List Nat) : Option (List Char) :=
  match bs with
  | 255 :: 254 :: rest => (utf16UnitsLE rest).bind utf16Combine
  | 254 :: 255 :: rest => (utf16UnitsBE rest).bind utf16Combine
  | _ => (utf16UnitsLE bs).bind utf16Combine

/-! ## The container point-stream decoder `read_jws_file` -/

/-- Outcome of the OLE `with`-block body (lines 33-99): points returned,
the plausibility gate redirecting to text parsing (line 98), or a raised
exception (caught by the handler at line 100). -/
inductive OleOutcome : Type where
  | pts (l : List (PyFloat × PyFloat)) : OleOutcome
  | toText : OleOutcome
  | exn (msg : List Char) : OleOutcome
  deriving DecidableEq

/-- The DELTAX scan over decoded Header lines (lines 55-60): the first
line whose stripped, uppercased text starts with `DELTAX` and splits on
tabs into exactly two parts supplies deltaX; a float parse failure there
raises, is caught at line 61, and leaves the 1.0 default (the scan does
not continue).  A matching line with a different number of tab parts is
passed over. -/
def scanDeltaX : List (List Char) → PyFloat
  | [] => .val 1
  | line :: rest =>
    if "DELTAX".data.isPrefixOf ((pyStripL line).map Char.toUpper) then
      let parts := splitOnChar '\t' line
      if parts.length = 2 then
        match pyFloatL? (parts.getD 1 []) with
        | some v => v
        | none => .val 1
      else scanDeltaX rest
    else scanDeltaX rest

/-- deltaX for implied-X mode (lines 50-62): 1.0 unless a "Header" stream
yields a value via `scanDeltaX`; the stream is decoded with
`errors='ignore'`. -/
def headerDeltaX (ole : OleFile) : PyFloat :=
  match ole.streamBytes "Header" with
  | none => .val 1
  | some raw => scanDeltaX (pySplitlines (utf8DecIgnore raw))

/-- The generic-mode candidate stream names (line 71). -/
def genericCandidates : List String :=
  ["Data", "DATA", "SpectralData", "Spectra", "SpecData", "Measurement",
   "Result", "ResultData"]

/-- Generic-mode stream selection (lines 70-80): first existing candidate
name, else the first single-segment `listdir()` entry; `none` (including
a falsy empty name) raises "No data stream found". -/
def genericStreamName (ole : OleFile) : Option String :=
  let fromCandidates := genericCandidates.find? ole.existsStream
  let chosen :=
    match fromCandidates with
    | some c => some c
    | none =>
      (ole.entries.find? (fun e => e.1.length = 1)).map (fun e => e.1.headD "")
  match chosen with
  | some nm => if nm = "" then none else some nm
  | none => none

/-- `nan_count` of the generic-mode loop: pairs where either coordinate
is NaN. -/
def nanCount (pts : List (PyFloat × PyFloat)) : Nat :=
  (pts.filter (fun p => p.1.isNaNF || p.2.isNaNF)).length

/-- `zero_count` of the generic-mode loop: pairs that are exactly (0, 0). -/
def zeroCount (pts : List (PyFloat × PyFloat)) : Nat :=
  (pts.filter (fun p => p.1.isZeroF && p.2.isZeroF)).length

/-- The plausibility gate (line 97):
`nan_count > num_points * 0.2 or zero_count > num_points * 0.5`,
with both comparisons exact over `ℚ` (see header note). -/
def gateTrips (pts : List (PyFloat × PyFloat)) : Bool :=
  mkRat (nanCount pts) 1 > mkRat pts.length 5 ||
  mkRat (zeroCount pts) 1 > mkRat pts.length 2

/-- The body of the OLE `with`-block of `read_jws_file` (lines 33-99):
paired-stream mode, implied-X mode, then the generic single-stream mode
with its plausibility gate. -/
def readOle (ole : OleFile) : OleOutcome :=
  if ole.existsStream "X-Data" && ole.existsStream "Y-Data" then
    let xdata := (ole.streamBytes "X-Data").getD []
    let ydata := (ole.streamBytes "Y-Data").getD []
    let points := (decodeF32Stream xdata).zip (decodeF32Stream ydata)
    if points.isEmpty then .exn "No valid data points found in file".data
    else .pts points
  else if ole.existsStream "Y-Data" then
    let ydata := (ole.streamBytes "Y-Data").getD []
    let yvals := decodeF32Stream ydata
    let deltax := headerDeltaX ole
    let xvals := (List.range yvals.length).map (fun i => PyFloat.mulNat i deltax)
    let points := xvals.zip yvals
    if points.isEmpty then .exn "No valid data points found in file".data
    else .pts points
  else
    match genericStreamName ole with
    | none => .exn "No data stream found in JWS file.".data
    | some nm =>
      let data := (ole.streamBytes nm).getD []
      if data.length % 8 ≠ 0 then
        .exn "Data stream size is not a multiple of 8 bytes.".data
      else
        let points := decodePairs data
        if gateTrips points then .toText else .pts points

/-- `JascoConverter.read_jws_file`: the text-extension / classifier
branch goes straight to the text parser; a failed OLE signature check
goes to the text parser; any exception inside the `try` block (including
an I/O error from `isOleFile` and every `raise` in the block) is caught
at line 100 and falls back to the text parser.  The gate redirect at
line 98 calls `_parse_as_text` inside the `try`; if that raises, the
handler calls it again with an identical result, so both routes are
`parse_as_text f`. -/
def read_jws_file (f : File) : Except (List Char) (List (PyFloat × PyFloat)) :=
  if textExts.contains (fileExt f) || is_text_file f then parse_as_text f
  else if f.ioError then parse_as_text f
  else
    match f.ole with
    | none => parse_as_text f
    | some ole =>
      match readOle ole with
      | .pts l => .ok l
      | .toText => parse_as_text f
      | .exn _ => parse_as_text f

/-! ## Header synthesis and output writing (`convert_to_txt`) -/

/-- The fixed, ordered header field list (lines 160-162). -/
def headerFields : List String :=
  ["TITLE", "DATA TYPE", "ORIGIN", "OWNER", "DATE", "TIME",
   "SPECTROMETER/DATA SYSTEM", "LOCALE", "RESOLUTION", "DELTAX", "XUNITS",
   "YUNITS", "FIRSTX", "LASTX", "NPOINTS", "FIRSTY", "MAXY", "MINY"]

/-- The header dict, as an ordered association list over `headerFields`. -/
abbrev Header := List (String × String)

/-- `header = {k: "" for k in header_fields}`. -/
def initHeader : Header := headerFields.map (fun k => (k, ""))

/-- `header[field] = value` (keys are fixed; updates only existing keys). -/
def setField (h : Header) (k v : String) : Header :=
  h.map (fun p => if p.1 = k then (p.1, v) else p)

/-- `header[field]` lookup (fields default to the empty string). -/
def getField (h : Header) (k : String) : String :=
  ((h.find? (fun p => p.1 = k)).map (fun p => p.2)).getD ""

/-- `s.replace(' ', '')` for the space-insensitive key match. -/
def stripSpaces (s : String) : String :=
  String.mk (s.data.filter (fun c => c ≠ ' '))

/-- One metadata key/value assignment (lines 190-192): every field whose
name matches the key exactly or space-insensitively receives the value. -/
def assignMeta (h : Header) (key value : String) : Header :=
  h.map (fun p =>
    if key = p.1 || stripSpaces key = stripSpaces p.1 then (p.1, value) else p)

/-- One metadata line (lines 180-192): split once on tab, else colon,
else whitespace; with exactly two parts, strip/uppercase the key and
assign the stripped value to matching fields. -/
def applyMetaLine (h : Header) (line : List Char) : Header :=
  let parts :=
    if line.contains '\t' then splitChar1 '\t' line
    else if line.contains ':' then splitChar1 ':' line
    else splitNone1 line
  match parts with
  | [k, v] =>
    assignMeta h (String.mk ((pyStripL k).map Char.toUpper)) (String.mk (pyStripL v))
  | _ => h

/-- Metadata stream text (lines 172-178): strict UTF-8, else UTF-16 with
null fillers stripped, else lossy UTF-8. -/
def decodeMeta (raw : Bytes) : List Char :=
  match utf8Dec? raw with
  | some t => t
  | none =>
    match utf16Dec? raw with
    | some t => t.filter (fun c => c ≠ Char.ofNat 0)
    | none => utf8DecIgnore raw

/-- The candidate metadata stream names (line 169). -/
def metaStreams : List String :=
  ["Header", "BaseInfo", "DataInfo", "MeasInfo", "SampleInfo", "UserInfo"]

/-- The metadata scan loop (lines 169-195): process each existing
candidate stream in order, stopping after a stream that leaves TITLE,
DATE and TIME all non-empty. -/
def metaScanGo (ole : OleFile) : List String → Header → Header
  | [], h => h
  | s :: rest, h =>
    match ole.streamBytes s with
    | none => metaScanGo ole rest h
    | some raw =>
      let h2 := (pySplitlines (decodeMeta raw)).foldl applyMetaLine h
      if getField h2 "TITLE" ≠ "" && getField h2 "DATE" ≠ "" &&
          getField h2 "TIME" ≠ "" then h2
      else metaScanGo ole rest h2

/-- Round-half-even of `q * s` to an integer, as C `%.Nf` formatting does
on the exact value (`s` is the power-of-ten scale). -/
def scaledRound (q : ℚ) (s : ℕ) : ℤ :=
  let n : ℤ := q.num * s
  let d : ℤ := (q.den : ℤ)
  let fl : ℤ := n.fdiv d
  let r : ℤ := n - fl * d
  if 2 * r < d then fl
  else if d < 2 * r then fl + 1
  else if fl % 2 = 0 then fl else fl + 1

/-- Left-pad with zeros to the given width (fraction digits). -/
def padZeros (n : Nat) (s : String) : String :=
  String.mk (List.replicate (n - s.length) '0') ++ s

/-- Right-justify in a field of width `w` (`f"{v:10.4f}"`, `f"{n:7d}"`). -/
def padLeft (w : Nat) (s : String) : String :=
  String.mk (List.replicate (w - s.length) ' ') ++ s

/-- Python fixed-point float formatting `f"{v:0.{prec}f}"`: sign from the
value, magnitude rounded half-even at `prec` decimal places; `nan`/`inf`
render as their names. -/
def fmtFixed (prec : Nat) : PyFloat → String
  | .nan => "nan"
  | .inf neg => if neg then "-inf" else "inf"
  | .val q =>
    let n := (scaledRound q (10 ^ prec)).natAbs
    let sgn := if q < 0 then "-" else ""
    sgn ++ toString (n / 10 ^ prec) ++ "." ++ padZeros prec (toString (n % 10 ^ prec))

/-- Python `max` over a non-empty float list (first element is the seed;
a later element replaces the current best only when strictly greater). -/
def pyMaxList (x : PyFloat) (xs : List PyFloat) : PyFloat :=
  xs.foldl (fun a b => if pyGt b a then b else a) x

/-- Python `min` over a non-empty float list. -/
def pyMinList (x : PyFloat) (xs : List PyFloat) : PyFloat :=
  xs.foldl (fun a b => if pyLt b a then b else a) x

/-- The computed-statistics block (lines 200-208): overwrite FIRSTX,
LASTX, NPOINTS, FIRSTY, MAXY, MINY from the decoded points, with the
source format widths (`10.4f`, `7d`, `10.5f`). -/
def computeStats (h : Header) (pts : List (PyFloat × PyFloat)) : Header :=
  match pts with
  | [] => h
  | p :: rest =>
    let xs := (p :: rest).map (fun q => q.1)
    let h := setField h "FIRSTX" (padLeft 10 (fmtFixed 4 p.1))
    let h := setField h "LASTX" (padLeft 10 (fmtFixed 4 (xs.getLastD p.1)))
    let h := setField h "NPOINTS" (padLeft 7 (toString (p :: rest).length))
    let h := setField h "FIRSTY" (padLeft 10 (fmtFixed 5 p.2))
    let h := setField h "MAXY" (padLeft 10 (fmtFixed 5 (pyMaxList p.2 (rest.map (fun q => q.2)))))
    setField h "MINY" (padLeft 10 (fmtFixed 5 (pyMinList p.2 (rest.map (fun q => q.2)))))

/-- `os.path.basename` (POSIX separator). -/
def basenameL (p : List Char) : List Char :=
  (splitOnChar '/' p).getLastD []

/-- The stem of `os.path.splitext`: cut at the last dot unless every
character before it is itself a dot (leading dots are part of the name). -/
def splitextStem (b : List Char) : List Char :=
  if b.contains '.' then
    let k := b.length - 1 - (b.reverse.indexOf '.')
    if (b.take k).all (fun c => c = '.') then b else b.take k
  else b

/-- The hard-coded defaults (lines 210-214), applied only to still-empty
fields. -/
def applyDefaults (h : Header) (f : File) : Header :=
  let h := if getField h "ORIGIN" = "" then setField h "ORIGIN" "JASCO" else h
  let h := if getField h "DATA TYPE" = "" then
    setField h "DATA TYPE" "FLUORESCENCE SPECTRUM" else h
  let h := if getField h "TITLE" = "" then
    setField h "TITLE" (String.mk (splitextStem (basenameL f.path))) else h
  let h := if getField h "XUNITS" = "" then setField h "XUNITS" "SEC" else h
  if getField h "YUNITS" = "" then setField h "YUNITS" "INTENSITY" else h

/-- The header block of the output (lines 218-219): one
`FIELDNAME<TAB>value<NL>` line per field, in dict (= field list) order. -/
def headerLines (h : Header) : List String :=
  h.map (fun p => p.1 ++ "\t" ++ p.2 ++ "\n")

/-- The data block of the output (lines 221-222): `X<TAB>Y<NL>` with X at
4 and Y at 2 decimal places. -/
def dataLines (pts : List (PyFloat × PyFloat)) : List String :=
  pts.map (fun p => fmtFixed 4 p.1 ++ "\t" ++ fmtFixed 2 p.2 ++ "\n")

/-- The full output file content (lines 217-222). -/
def outputContent (h : Header) (pts : List (PyFloat × PyFloat)) : String :=
  String.join (headerLines h) ++ "XYDATA\n" ++ String.join (dataLines pts)

/-- Result of `convert_to_txt`: the `(success, message)` pair returned to
the caller, plus the content written to the output path (`none` when the
output file is never opened). -/
structure ConvResult : Type where
  success : Bool
  message : String
  written : Option String
  deriving DecidableEq

/-- `JascoConverter.convert_to_txt`: read points (any `ValueError`
surfacing from the read becomes a failure result), reject an empty point
list, build the header (metadata scan when the input is a container,
computed statistics, defaults), and only then write the output file.
The output is opened only on the success path, after validation. -/
def convert_to_txt (f : File) : ConvResult :=
  match read_jws_file f with
  | .error e => ⟨false, "Error converting file: " ++ String.mk e, none⟩
  | .ok pts =>
    if pts.isEmpty then
      ⟨false, "Error converting file: No data points found in file", none⟩
    else
      let h0 := initHeader
      let h1 :=
        match f.ole with
        | some ole => metaScanGo ole metaStreams h0
        | none => h0
      let h2 := computeStats h1 pts
      let h3 := applyDefaults h2 f
      ⟨true, "Successfully converted " ++ toString pts.length ++ " data points",
        some (outputContent h3 pts)⟩

/-- Decidable equality of decoder results, to evaluate concrete runs. -/
instance : DecidableEq (Except (List Char) (List (PyFloat × PyFloat))) :=
  fun a b =>
    match a, b with
    | .ok x, .ok y =>
      if h : x = y then isTrue (by rw [h]) else isFalse (by simp [h])
    | .error x, .error y =>
      if h : x = y then isTrue (by rw [h]) else isFalse (by simp [h])
    | .ok _, .error _ => isFalse (by simp)
    | .error _, .ok _ => isFalse (by simp)

/-! ## Statement-support definitions -/

/-- A syntactically valid two-column data line for the text parser: after
stripping it is non-empty, not a `#`/`%` comment, its chosen-delimiter
split has at least two fields, and the first two fields parse as floats. -/
def validDataLineL (line : List Char) : Bool :=
  let s := pyStripL line
  !s.isEmpty && !(s.headD ' ' = '#') && !(s.headD ' ' = '%') &&
  decide (2 ≤ (lineFields s).length) &&
  (pyFloatL? ((lineFields s).getD 0 [])).isSome &&
  (pyFloatL? ((lineFields s).getD 1 [])).isSome

/-- The point a valid data line yields: its first two fields parsed. -/
def lineValue (line : List Char) : PyFloat × PyFloat :=
  let s := pyStripL line
  ((pyFloatL? ((lineFields s).getD 0 [])).getD .nan,
   (pyFloatL? ((lineFields s).getD 1 [])).getD .nan)

/-- Modelled from the spec claim for DELTAX (claim C3), not from the
source: deltaX comes from the first Header line whose FIRST TAB-SEPARATED
FIELD, trimmed and uppercased, EQUALS `DELTAX`, its second field parsed
as a float, with 1.0 on absence or parse failure.  Compare with the
source-derived `scanDeltaX`, which instead tests whether the whole
stripped line STARTS WITH `DELTAX` and requires exactly two tab fields. -/
def specClaimDeltaX (ls : List (List Char)) : PyFloat :=
  match ls.find? (fun line =>
      (pyStripL ((splitOnChar '\t' line).getD 0 [])).map Char.toUpper
        = "DELTAX".data) with
  | none => .val 1
  | some line =>
    match pyFloatL? ((splitOnChar '\t' line).getD 1 []) with
    | some v => v
    | none => .val 1

/-- Bytes of an ASCII string (for concrete container payloads). -/
def asciiBytes (s : String) : Bytes := s.data.map Char.toNat

/-- Concatenated little-endian float32 encodings of a word list. -/
def bytesOfWords : List Nat → Bytes
  | [] => []
  | w :: ws => encodeF32 w ++ bytesOfWords ws

/-- float32 `1.0`. -/
def one32 : Bytes := [0, 0, 128, 63]

/-- float32 `2.0`. -/
def two32 : Bytes := [0, 0, 0, 64]

/-- A float32 quiet NaN (`0x7FC00000`). -/
def nan32 : Bytes := [0, 0, 192, 127]

/-- The three-point series of claim C7:
`[(1.0, 0.5), (2.0, 0.9), (3.0, 0.1)]`. -/
def pts3 : List (PyFloat × PyFloat) :=
  [(.val 1, .val (mkRat 1 2)), (.val 2, .val (mkRat 9 10)),
   (.val 3, .val (mkRat 1 10))]

/-- 100 interleaved float32 pairs, 25 of which have a NaN x coordinate
(NaN fraction exactly 0.25). -/
def gate100Bytes : Bytes :=
  (List.replicate 25 (nan32 ++ one32) ++
    List.replicate 75 (one32 ++ one32)).flatten

/-- Witness container for C1: one generic "Data" stream holding
`gate100Bytes`. -/
def oleGate100 : OleFile := ⟨[(["Data"], gate100Bytes)]⟩

/-- Counterexample container for C3: two 1.0 Y-values and a Header line
`DELTAXY<TAB>9.0` whose first tab field is not `DELTAX` but which the
source's `startswith` test accepts. -/
def oleDeltaxy : OleFile :=
  ⟨[(["Y-Data"], one32 ++ one32), (["Header"], asciiBytes "DELTAXY\t9.0\n")]⟩

/-- Witness container for the amended C3: Header `DELTAX<TAB>2.5` and
three 1.0 Y-values. -/
def oleDelta25 : OleFile :=
  ⟨[(["Y-Data"], one32 ++ one32 ++ one32),
    (["Header"], asciiBytes "DELTAX\t2.5\n")]⟩

/-- Witness container for C4: X stream `[1.0]`, Y stream `[2.0]`. -/
def olePair1 : OleFile := ⟨[(["X-Data"], one32), (["Y-Data"], two32)]⟩

/-- Witness file for C5: binary-looking non-OLE bytes, no parsable text. -/
def fBinary : File :=
  ⟨"b.jws".data, false, [0, 1, 2, 3], [].map id, none⟩

/-- Witness container for C10: a Y-Data stream of 9 bytes (two float32
values and one trailing byte). -/
def oleRagged : OleFile := ⟨[(["Y-Data"], one32 ++ two32 ++ [7])]⟩

/-- The 20-row two-column text input of claim C6. -/
def text20 : String :=
  "1\t1.5\n2\t1.5\n3\t1.5\n4\t1.5\n5\t1.5\n6\t1.5\n7\t1.5\n8\t1.5\n9\t1.5\n10\t1.5\n" ++
  "11\t1.5\n12\t1.5\n13\t1.5\n14\t1.5\n15\t1.5\n16\t1.5\n17\t1.5\n18\t1.5\n19\t1.5\n20\t1.5\n"

/-- Witness file for C6: a 20-row two-column text file. -/
def f20 : File :=
  ⟨"dir/run20.txt".data, false, asciiBytes text20, text20.data, none⟩

/-- The 20 points `f20` decodes to. -/
def pts20 : List (PyFloat × PyFloat) :=
  (List.range 20).map (fun i => (.val (mkRat (i + 1) 1), .val (mkRat 3 2)))

/-- An empty input file (C8). -/
def fEmpty : File := ⟨"sample.jws".data, false, [], [], none⟩

/-- A file containing only comment lines (C8). -/
def fComments : File :=
  ⟨"notes.txt".data, false, asciiBytes "# alpha\n% beta\n", "# alpha\n% beta\n".data, none⟩

/-- Witness file for C9: 8 texty bytes out of 10 (fraction 0.8 > 0.7). -/
def fMostlyText : File :=
  ⟨"m.jws".data, false, [65, 66, 67, 68, 69, 70, 71, 10, 0, 254], [].map id, none⟩

/-! ## Helper lemmas -/

theorem append_ne_empty_left (a b : String) (ha : a.data ≠ []) : a ++ b ≠ "" := by
  intro hEq
  apply ha
  have hd := congrArg String.data hEq
  rw [String.data_append] at hd
  exact (List.append_eq_nil.mp hd).1

theorem read_error_is_text_error (f : File) (m : List Char)
    (h : read_jws_file f = .error m) : parse_as_text f = .error m := by
  unfold read_jws_file at h
  split at h
  · exact h
  split at h
  · exact h
  split at h
  · exact h
  split at h
  · exact absurd h (by simp)
  · exact h
  · exact h

theorem readOle_generic_badsize (ole : OleFile) (nm : String) (data : Bytes)
    (hY : ole.existsStream "Y-Data" = false)
    (hnm : genericStreamName ole = some nm)
    (hdata : ole.streamBytes nm = some data)
    (hsz : data.length % 8 ≠ 0) :
    readOle ole = .exn "Data stream size is not a multiple of 8 bytes.".data := by
  unfold readOle
  rw [hY, hnm]
  simp [hdata, hsz]

theorem readOle_generic_nostream (ole : OleFile)
    (hY : ole.existsStream "Y-Data" = false)
    (hnm : genericStreamName ole = none) :
    readOle ole = .exn "No data stream found in JWS file.".data := by
  unfold readOle
  rw [hY, hnm]
  simp

theorem readOle_generic_ok (ole : OleFile) (nm : String) (data : Bytes)
    (hY : ole.existsStream "Y-Data" = false)
    (hnm : genericStreamName ole = some nm)
    (hdata : ole.streamBytes nm = some data)
    (hsz : data.length % 8 = 0) :
    readOle ole =
      if gateTrips (decodePairs data) then .toText else .pts (decodePairs data) := by
  unfold readOle
  rw [hY, hnm]
  simp [hdata, hsz]

theorem read_routes_to_text (f : File) (ole : OleFile) (hole : f.ole = some ole)
    (h : readOle ole = .toText ∨ ∃ m, readOle ole = .exn m) :
    read_jws_file f = parse_as_text f := by
  unfold read_jws_file
  split
  · rfl
  split
  · rfl
  rw [hole]
  rcases h with h | ⟨m, h⟩ <;> simp only [h]

/-! ## Claim theorems -/

/-- C5: for every input file, a failed container signature check
(`f.ole = none`), or any exception while enumerating or reading container
streams — including a generic-mode data stream whose size is not a
multiple of 8 and the absence of any data stream — makes the decoder fall
back to the delimited-text parser instead of propagating the container
error; and any error `read_jws_file` raises to the caller is exactly a
terminal text-parser error. -/
theorem claim5_fallback :
    (∀ f : File, f.ole = none → read_jws_file f = parse_as_text f) ∧
    (∀ (f : File) (ole : OleFile) (m : List Char), f.ole = some ole →
      readOle ole = .exn m → read_jws_file f = parse_as_text f) ∧
    (∀ (ole : OleFile) (nm : String) (data : Bytes),
      ole.existsStream "Y-Data" = false → genericStreamName ole = some nm →
      ole.streamBytes nm = some data → data.length % 8 ≠ 0 →
      readOle ole = .exn "Data stream size is not a multiple of 8 bytes.".data) ∧
    (∀ ole : OleFile, ole.existsStream "Y-Data" = false →
      genericStreamName ole = none →
      readOle ole = .exn "No data stream found in JWS file.".data) ∧
    (∀ (f : File) (m : List Char), read_jws_file f = .error m →
      parse_as_text f = .error m) := by
  refine ⟨?_, ?_, readOle_generic_badsize, readOle_generic_nostream,
    read_error_is_text_error⟩
  · intro f hole
    unfold read_jws_file
    split
    · rfl
    split
    · rfl
    simp only [hole]
  · intro f ole m hole hexn
    exact read_routes_to_text f ole hole (Or.inr ⟨m, hexn⟩)

/-- Witness for C5: a non-OLE binary file falls back to the text parser
(which here terminally fails, and that failure is what the caller sees). -/
theorem claim5_fallback_witness :
    read_jws_file fBinary = parse_as_text fBinary ∧
    read_jws_file fBinary =
      .error ("Could not parse file: ".data ++ "b.jws".data ++
        " - No valid data points found in file".data) :=
  ⟨claim5_fallback.1 fBinary rfl, rfl⟩

/-- C9: the text-likelihood classifier samples at most the first 1024
bytes; an empty sample reports not-text; otherwise it reports text exactly
when the fraction of sampled bytes that are printable ASCII (32-126) or
tab/newline/carriage-return (9, 10, 13) strictly exceeds 0.7; and an I/O
error during the sample read yields not-text instead of propagating. -/
theorem claim9_classifier :
    (∀ f : File, f.ioError = true → is_text_file f = false) ∧
    (∀ f : File, f.bytes.take 1024 = [] → is_text_file f = false) ∧
    (∀ f : File, f.ioError = false → f.bytes.take 1024 ≠ [] →
      (is_text_file f = true ↔
        mkRat ((f.bytes.take 1024).filter isTextByte).length 1 >
          mkRat (7 * (f.bytes.take 1024).length) 10)) ∧
    (∀ f g : File, f.ioError = g.ioError → f.bytes.take 1024 = g.bytes.take 1024 →
      is_text_file f = is_text_file g) := by
  refine ⟨?_, ?_, ?_, ?_⟩
  · intro f h
    simp [is_text_file, h]
  · intro f h
    unfold is_text_file
    split
    · rfl
    · simp [h]
  · intro f hio hne
    unfold is_text_file
    simp [hio, List.isEmpty_eq_false.mpr hne, decide_eq_true_iff]
  · intro f g hio hb
    unfold is_text_file
    rw [hio, hb]

/-- Witness for C9: a 10-byte sample with 8 texty bytes (fraction 0.8)
classifies as text. -/
theorem claim9_classifier_witness : is_text_file fMostlyText = true :=
  (claim9_classifier.2.2.1 fMostlyText rfl (by decide)).mpr (by decide)

/-- C8: whenever conversion fails — in particular for an empty file and
for a file containing only comment lines — `convert_to_txt` returns
`success = false` with a non-empty message and writes no output file;
the output is produced only after a non-empty point series has been
assembled and validated. -/
theorem claim8_failure :
    (∀ f : File, (convert_to_txt f).success = false →
      (convert_to_txt f).written = none ∧ (convert_to_txt f).message ≠ "") ∧
    (∀ (f : File) (s : String), (convert_to_txt f).written = some s →
      ∃ pts, read_jws_file f = .ok pts ∧ pts ≠ [] ∧
        (convert_to_txt f).success = true) ∧
    ((convert_to_txt fEmpty).success = false ∧
      (convert_to_txt fEmpty).written = none ∧
      (convert_to_txt fEmpty).message ≠ "") ∧
    ((convert_to_txt fComments).success = false ∧
      (convert_to_txt fComments).written = none ∧
      (convert_to_txt fComments).message ≠ "") := by
  have hfail : ∀ f : File, (convert_to_txt f).success = false →
      (convert_to_txt f).written = none ∧ (convert_to_txt f).message ≠ "" := by
    intro f hs
    cases hr : read_jws_file f with
    | error m =>
      unfold convert_to_txt
      rw [hr]
      exact ⟨rfl, append_ne_empty_left _ _ (by decide)⟩
    | ok pts =>
      by_cases he : pts.isEmpty
      · unfold convert_to_txt
        rw [hr]
        simp only [he, if_true]
        exact ⟨by simp, by decide⟩
      · exfalso
        unfold convert_to_txt at hs
        rw [hr] at hs
        simp [he] at hs
  refine ⟨hfail, ?_, ?_, ?_⟩
  · intro f s hw
    unfold convert_to_txt at hw
    split at hw
    · exact absurd hw (by simp)
    next pts hr =>
      split at hw
      · exact absurd hw (by simp)
      next hne =>
        refine ⟨pts, hr, by simpa using hne, ?_⟩
        unfold convert_to_txt
        rw [hr]
        simp [hne]
  · exact ⟨by decide, (hfail fEmpty (by decide)).1, (hfail fEmpty (by decide)).2⟩
  · exact ⟨by decide, (hfail fComments (by decide)).1, (hfail fComments (by decide)).2⟩

/-- Witness for C8: the general failure consequence applied to the empty
input file. -/
theorem claim8_failure_witness :
    (convert_to_txt fEmpty).written = none ∧ (convert_to_txt fEmpty).message ≠ "" :=
  claim8_failure.1 fEmpty (by decide)

theorem linePoint_eq (l : List Char) :
    linePointL? l = if validDataLineL l then some (lineValue l) else none := by
  unfold linePointL? validDataLineL lineValue
  by_cases h1 : (pyStripL l).isEmpty
  · simp [h1]
  by_cases h2 : (pyStripL l).head?.getD ' ' = '#'
  · simp [h1, h2]
  by_cases h3 : (pyStripL l).head?.getD ' ' = '%'
  · simp [h1, h3]
  cases hf : lineFields (pyStripL l) with
  | nil => simp [h1, h2, h3, hf]
  | cons a t =>
    cases t with
    | nil => simp [h1, h2, h3, hf]
    | cons b t2 =>
      cases hx : pyFloatL? a with
      | none => simp [h1, h2, h3, hf, hx]
      | some x =>
        cases hy : pyFloatL? b with
        | none => simp [h1, h2, h3, hf, hx, hy]
        | some y =>
          simp [h1, h2, h3, hf, hx, hy]

/-- C2: the delimited-text parser strips each line, skips empty and
`#`/`%` comment lines, chooses one delimiter per line (tab, else comma,
else whitespace runs), and emits a point from the first two fields when
at least two fields are present and both parse as floats; an invalid
line is skipped without aborting the remaining lines; and on input whose
lines are all valid two-column data lines it returns exactly one point
per line, in file order. -/
theorem claim2_delimited_text :
    (∀ (l : List Char) (ls : List (List Char)), validDataLineL l = false →
      parseTextLines (l :: ls) = parseTextLines ls) ∧
    (∀ (l : List Char) (ls : List (List Char)), validDataLineL l = true →
      parseTextLines (l :: ls) = lineValue l :: parseTextLines ls) ∧
    (∀ ls : List (List Char), (∀ l ∈ ls, validDataLineL l = true) →
      parseTextLines ls = ls.map lineValue ∧
      (parseTextLines ls).length = ls.length) := by
  have hskip : ∀ (l : List Char) (ls : List (List Char)), validDataLineL l = false →
      parseTextLines (l :: ls) = parseTextLines ls := by
    intro l ls h
    unfold parseTextLines
    rw [List.filterMap_cons, linePoint_eq l, h]
    simp
  have hemit : ∀ (l : List Char) (ls : List (List Char)), validDataLineL l = true →
      parseTextLines (l :: ls) = lineValue l :: parseTextLines ls := by
    intro l ls h
    unfold parseTextLines
    rw [List.filterMap_cons, linePoint_eq l, h]
    simp
  refine ⟨hskip, hemit, ?_⟩
  intro ls hall
  induction ls with
  | nil => exact ⟨rfl, rfl⟩
  | cons l t ih =>
    have hl : validDataLineL l = true := hall l (List.mem_cons_self l t)
    have iht := ih (fun x hx => hall x (List.mem_cons_of_mem l hx))
    rw [hemit l t hl, List.map_cons, iht.1]
    exact ⟨rfl, by simp [← iht.1, iht.2]⟩

/-- Witness for C2: a three-line input exercising all three delimiters
parses to exactly three points in order. -/
theorem claim2_delimited_text_witness :
    parseTextLines ["1\t2".data, "3,4".data, "5 6".data] =
      ["1\t2".data, "3,4".data, "5 6".data].map lineValue ∧
    (parseTextLines ["1\t2".data, "3,4".data, "5 6".data]).length =
      (["1\t2".data, "3,4".data, "5 6".data] : List (List Char)).length :=
  claim2_delimited_text.2.2 ["1\t2".data, "3,4".data, "5 6".data] (by decide)


theorem wordAt_cons (a : Nat) (l : Bytes) (n : Nat) :
    wordAt (a :: l) (n + 1) = wordAt l n := rfl

theorem decodeF32Stream_cons4 (b0 b1 b2 b3 : Nat) (rest : Bytes) :
    decodeF32Stream (b0 :: b1 :: b2 :: b3 :: rest) =
      decodeF32 (b0 + 256 * b1 + 65536 * b2 + 16777216 * b3) ::
        decodeF32Stream rest := by
  unfold decodeF32Stream
  have hlen : (b0 :: b1 :: b2 :: b3 :: rest).length / 4 = rest.length / 4 + 1 := by
    simp only [List.length_cons]
    omega
  rw [hlen, List.range_succ_eq_map, List.map_cons, List.map_map]
  exact congrArg₂ List.cons rfl (List.map_congr_left (fun i _ => rfl))

theorem wordAt_encode (w : Nat) (hw : w < 2 ^ 32) :
    w % 256 + 256 * (w / 256 % 256) + 65536 * (w / 65536 % 256) +
      16777216 * (w / 16777216 % 256) = w := by
  omega

theorem decode_bytesOfWords (ws : List Nat) (h : ∀ w ∈ ws, w < 2 ^ 32) :
    decodeF32Stream (bytesOfWords ws) = ws.map decodeF32 := by
  induction ws with
  | nil => decide
  | cons w t ih =>
    simp only [bytesOfWords, encodeF32, List.cons_append, List.nil_append,
      decodeF32Stream_cons4, List.map_cons]
    refine congrArg₂ List.cons ?_ ?_
    · exact congrArg decodeF32 (wordAt_encode w (h w (List.mem_cons_self w t)))
    · exact ih (fun x hx => h x (List.mem_cons_of_mem w hx))

theorem readOle_paired (ole : OleFile) (xb yb : Bytes)
    (hx : ole.streamBytes "X-Data" = some xb)
    (hy : ole.streamBytes "Y-Data" = some yb) :
    readOle ole =
      if ((decodeF32Stream xb).zip (decodeF32Stream yb)).isEmpty then
        .exn "No valid data points found in file".data
      else .pts ((decodeF32Stream xb).zip (decodeF32Stream yb)) := by
  have hxe : ole.existsStream "X-Data" = true := by
    simp [OleFile.existsStream, hx]
  have hye : ole.existsStream "Y-Data" = true := by
    simp [OleFile.existsStream, hy]
  unfold readOle
  rw [hxe, hye]
  simp [hx, hy]

/-- C4: in paired-stream mode each stream is decoded as packed
little-endian float32 values (4 bytes per value) and the sequences are
zipped positionally, truncating to the shorter; for equal-length streams
of M values the decoder returns exactly M points whose values are the
decodes of the stored 32-bit words; and it raises the no-data-points
error when either stream decodes to zero values. -/
theorem claim4_paired (ole : OleFile) (ws vs : List Nat)
    (hw : ∀ w ∈ ws, w < 2 ^ 32) (hv : ∀ w ∈ vs, w < 2 ^ 32)
    (hx : ole.streamBytes "X-Data" = some (bytesOfWords ws))
    (hy : ole.streamBytes "Y-Data" = some (bytesOfWords vs)) :
    (ws ≠ [] → vs ≠ [] →
      readOle ole = .pts ((ws.map decodeF32).zip (vs.map decodeF32)) ∧
      ((ws.map decodeF32).zip (vs.map decodeF32)).length =
        min ws.length vs.length) ∧
    (ws.length = vs.length →
      ((ws.map decodeF32).zip (vs.map decodeF32)).length = ws.length) ∧
    ((ws = [] ∨ vs = []) →
      readOle ole = .exn "No valid data points found in file".data) := by
  have hdx := decode_bytesOfWords ws hw
  have hdy := decode_bytesOfWords vs hv
  have hro := readOle_paired ole (bytesOfWords ws) (bytesOfWords vs) hx hy
  rw [hdx, hdy] at hro
  refine ⟨?_, ?_, ?_⟩
  · intro hwne hvne
    have hne : ((ws.map decodeF32).zip (vs.map decodeF32)).isEmpty = false := by
      simp [List.isEmpty_eq_false, hwne, hvne]
    rw [hne] at hro
    simp only [Bool.false_eq_true, if_false] at hro
    exact ⟨hro, by simp [List.length_zip]⟩
  · intro hlen
    simp [List.length_zip, hlen]
  · intro hor
    have hz : ((ws.map decodeF32).zip (vs.map decodeF32)).isEmpty = true := by
      rcases hor with h | h <;> simp [h]
    rw [hz] at hro
    simpa using hro

/-- Witness for C4: X stream `[1.0f]`, Y stream `[2.0f]` decode to the
single point (1.0, 2.0). -/
theorem claim4_paired_witness :
    readOle olePair1 =
      .pts (([1065353216].map decodeF32).zip ([1073741824].map decodeF32)) :=
  ((claim4_paired olePair1 [1065353216] [1073741824] (by decide) (by decide)
    (by decide) (by decide)).1 (by decide) (by decide)).1

theorem readOle_implied (ole : OleFile) (yb : Bytes)
    (hX : ole.existsStream "X-Data" = false)
    (hy : ole.streamBytes "Y-Data" = some yb) :
    readOle ole =
      if (((List.range (decodeF32Stream yb).length).map
          (fun i => PyFloat.mulNat i (headerDeltaX ole))).zip
            (decodeF32Stream yb)).isEmpty then
        .exn "No valid data points found in file".data
      else
        .pts (((List.range (decodeF32Stream yb).length).map
          (fun i => PyFloat.mulNat i (headerDeltaX ole))).zip
            (decodeF32Stream yb)) := by
  have hye : ole.existsStream "Y-Data" = true := by
    simp [OleFile.existsStream, hy]
  unfold readOle
  rw [hX, hye]
  simp [hy]

theorem decodeF32Stream_append (bs extra : Bytes)
    (hb : bs.length % 4 = 0) (he : extra.length < 4) :
    decodeF32Stream (bs ++ extra) = decodeF32Stream bs := by
  unfold decodeF32Stream
  have hlen : (bs ++ extra).length / 4 = bs.length / 4 := by
    simp only [List.length_append]
    omega
  rw [hlen]
  apply List.map_congr_left
  intro i hi
  rw [List.mem_range] at hi
  have hi4 : 4 * i + 3 < bs.length := by omega
  have e0 := List.getD_append bs extra 0 (4 * i) (by omega)
  have e1 := List.getD_append bs extra 0 (4 * i + 1) (by omega)
  have e2 := List.getD_append bs extra 0 (4 * i + 2) (by omega)
  have e3 := List.getD_append bs extra 0 (4 * i + 3) (by omega)
  unfold wordAt
  rw [e0, e1, e2, e3]

/-- C10: in paired-stream and implied-X modes a stream whose byte length
is not a multiple of 4 does not fail: exactly `length / 4` float32 values
are decoded and the 1-3 trailing bytes are discarded; only the generic
single-stream mode rejects a stream whose length is not a multiple of 8. -/
theorem claim10_trailing_bytes :
    (∀ bs : Bytes, (decodeF32Stream bs).length = bs.length / 4) ∧
    (∀ bs extra : Bytes, bs.length % 4 = 0 → extra.length < 4 →
      decodeF32Stream (bs ++ extra) = decodeF32Stream bs) ∧
    (∀ (ole : OleFile) (xb yb : Bytes),
      ole.streamBytes "X-Data" = some xb →
      ole.streamBytes "Y-Data" = some yb →
      decodeF32Stream xb ≠ [] → decodeF32Stream yb ≠ [] →
      readOle ole = .pts ((decodeF32Stream xb).zip (decodeF32Stream yb))) ∧
    (∀ (ole : OleFile) (yb : Bytes),
      ole.existsStream "X-Data" = false →
      ole.streamBytes "Y-Data" = some yb → decodeF32Stream yb ≠ [] →
      readOle ole = .pts (((List.range (decodeF32Stream yb).length).map
        (fun i => PyFloat.mulNat i (headerDeltaX ole))).zip
          (decodeF32Stream yb))) ∧
    (∀ (ole : OleFile) (nm : String) (data : Bytes),
      ole.existsStream "Y-Data" = false → genericStreamName ole = some nm →
      ole.streamBytes nm = some data → data.length % 8 ≠ 0 →
      readOle ole =
        .exn "Data stream size is not a multiple of 8 bytes.".data) := by
  refine ⟨?_, decodeF32Stream_append, ?_, ?_, readOle_generic_badsize⟩
  · intro bs
    simp [decodeF32Stream]
  · intro ole xb yb hx hy hxne hyne
    have hro := readOle_paired ole xb yb hx hy
    have hne : ((decodeF32Stream xb).zip (decodeF32Stream yb)).isEmpty = false := by
      simp [List.isEmpty_eq_false, hxne, hyne]
    rw [hne] at hro
    simpa using hro
  · intro ole yb hX hy hyne
    have hro := readOle_implied ole yb hX hy
    have hne : (((List.range (decodeF32Stream yb).length).map
        (fun i => PyFloat.mulNat i (headerDeltaX ole))).zip
          (decodeF32Stream yb)).isEmpty = false := by
      simp [List.isEmpty_eq_false, hyne]
    rw [hne] at hro
    simpa using hro

/-- Witness for C10: a 9-byte Y-Data stream (no X-Data) decodes its two
float32 values, silently dropping the trailing byte. -/
theorem claim10_trailing_bytes_witness :
    readOle oleRagged =
      .pts (((List.range (decodeF32Stream (one32 ++ two32 ++ [7])).length).map
        (fun i => PyFloat.mulNat i (headerDeltaX oleRagged))).zip
          (decodeF32Stream (one32 ++ two32 ++ [7]))) :=
  claim10_trailing_bytes.2.2.2.1 oleRagged (one32 ++ two32 ++ [7])
    (by decide) (by decide) (by decide)

/-- C1: in generic single-stream mode (neither X-Data nor Y-Data stream
exists), the decoded interleaved pairs are discarded exactly when the
NaN-pair fraction exceeds 0.2 or the (0,0)-pair fraction exceeds 0.5, in
which case `read_jws_file` re-parses the file with the text parser;
paired-stream and implied-X modes never trip this gate and return their
points as-is when non-empty. -/
theorem claim1_gate :
    (∀ (ole : OleFile) (nm : String) (data : Bytes),
      ole.existsStream "X-Data" = false → ole.existsStream "Y-Data" = false →
      genericStreamName ole = some nm → ole.streamBytes nm = some data →
      data.length % 8 = 0 →
      (gateTrips (decodePairs data) = true → readOle ole = .toText) ∧
      (gateTrips (decodePairs data) = false →
        readOle ole = .pts (decodePairs data))) ∧
    (∀ (f : File) (ole : OleFile), f.ole = some ole →
      readOle ole = .toText → read_jws_file f = parse_as_text f) ∧
    (∀ (ole : OleFile) (xb yb : Bytes),
      ole.streamBytes "X-Data" = some xb →
      ole.streamBytes "Y-Data" = some yb →
      readOle ole ≠ .toText ∧
      ((decodeF32Stream xb).zip (decodeF32Stream yb) ≠ [] →
        readOle ole = .pts ((decodeF32Stream xb).zip (decodeF32Stream yb)))) ∧
    (∀ (ole : OleFile) (yb : Bytes),
      ole.existsStream "X-Data" = false →
      ole.streamBytes "Y-Data" = some yb →
      readOle ole ≠ .toText ∧
      (((List.range (decodeF32Stream yb).length).map
          (fun i => PyFloat.mulNat i (headerDeltaX ole))).zip
            (decodeF32Stream yb) ≠ [] →
        readOle ole = .pts (((List.range (decodeF32Stream yb).length).map
          (fun i => PyFloat.mulNat i (headerDeltaX ole))).zip
            (decodeF32Stream yb)))) := by
  refine ⟨?_, ?_, ?_, ?_⟩
  · intro ole nm data _ hY hnm hdata hsz
    have h := readOle_generic_ok ole nm data hY hnm hdata hsz
    constructor <;> intro hg <;> rw [h, hg] <;> simp
  · intro f ole hole ht
    exact read_routes_to_text f ole hole (Or.inl ht)
  · intro ole xb yb hx hy
    have hro := readOle_paired ole xb yb hx hy
    constructor
    · rw [hro]
      split <;> simp
    · intro hne
      rw [hro, List.isEmpty_eq_false.mpr hne]
      simp
  · intro ole yb hX hy
    have hro := readOle_implied ole yb hX hy
    constructor
    · rw [hro]
      split <;> simp
    · intro hne
      rw [hro, List.isEmpty_eq_false.mpr hne]
      simp

theorem decodePairs_cons8 (b0 b1 b2 b3 b4 b5 b6 b7 : Nat) (rest : Bytes) :
    decodePairs (b0 :: b1 :: b2 :: b3 :: b4 :: b5 :: b6 :: b7 :: rest) =
      (decodeF32 (b0 + 256 * b1 + 65536 * b2 + 16777216 * b3),
       decodeF32 (b4 + 256 * b5 + 65536 * b6 + 16777216 * b7)) ::
        decodePairs rest := by
  unfold decodePairs
  have hlen : (b0 :: b1 :: b2 :: b3 :: b4 :: b5 :: b6 :: b7 :: rest).length / 8 =
      rest.length / 8 + 1 := by
    simp only [List.length_cons]
    omega
  rw [hlen, List.range_succ_eq_map, List.map_cons, List.map_map]
  exact congrArg₂ List.cons rfl (List.map_congr_left (fun i _ => rfl))

theorem decodePairs_flatten_rep (b0 b1 b2 b3 b4 b5 b6 b7 : Nat) (tail : Bytes) :
    ∀ n : Nat,
      decodePairs ((List.replicate n [b0, b1, b2, b3, b4, b5, b6, b7]).flatten
          ++ tail) =
        List.replicate n
          (decodeF32 (b0 + 256 * b1 + 65536 * b2 + 16777216 * b3),
           decodeF32 (b4 + 256 * b5 + 65536 * b6 + 16777216 * b7)) ++
          decodePairs tail := by
  intro n
  induction n with
  | zero => simp
  | succ n ih =>
    simp only [List.replicate_succ, List.flatten_cons, List.cons_append,
      List.nil_append, List.append_assoc, decodePairs_cons8, ih]

theorem decodePairs_gate100 :
    decodePairs gate100Bytes =
      List.replicate 25 (PyFloat.nan, PyFloat.val 1) ++
        List.replicate 75 (PyFloat.val 1, PyFloat.val 1) := by
  have hb : gate100Bytes =
      (List.replicate 25 [0, 0, 192, 127, 0, 0, 128, 63]).flatten ++
        ((List.replicate 75 [0, 0, 128, 63, 0, 0, 128, 63]).flatten ++ []) := by
    simp [gate100Bytes, nan32, one32]
  rw [hb, decodePairs_flatten_rep, decodePairs_flatten_rep]
  have h1 : decodeF32 (0 + 256 * 0 + 65536 * 192 + 16777216 * 127) =
      PyFloat.nan := by decide
  have h2 : decodeF32 (0 + 256 * 0 + 65536 * 128 + 16777216 * 63) =
      PyFloat.val 1 := by decide
  have h0 : decodePairs [] = [] := by decide
  rw [h1, h2]
  simp [h0]

/-- Witness for C1: the 100-point generic candidate with NaN fraction
0.25 (25 NaN pairs of 100) trips the gate and is rerouted to the text
parser. -/
theorem claim1_gate_witness :
    nanCount (decodePairs gate100Bytes) = 25 ∧
    (decodePairs gate100Bytes).length = 100 ∧
    readOle oleGate100 = .toText := by
  have hdp := decodePairs_gate100
  refine ⟨by rw [hdp]; decide, by rw [hdp]; decide, ?_⟩
  have hlen8 : gate100Bytes.length % 8 = 0 := by
    simp [gate100Bytes, nan32, one32]
  have hgate : gateTrips (decodePairs gate100Bytes) = true := by
    rw [hdp]
    decide
  exact (claim1_gate.1 oleGate100 "Data" gate100Bytes (by decide) (by decide)
    (by decide) (by decide) hlen8).1 hgate

/-- Counterexample for C3: the Header line `DELTAXY<TAB>9.0` has first
tab field `DELTAXY`, not `DELTAX`, so under the claim (mirrored by
`specClaimDeltaX`) deltaX stays 1.0 and the second point would be
(1.0, 1.0); the code's `startswith` test accepts the line, so the decoder
actually returns (9.0, 1.0). -/
theorem claim3_counterexample :
    specClaimDeltaX (pySplitlines (utf8DecIgnore (asciiBytes "DELTAXY\t9.0\n")))
      = .val 1 ∧
    headerDeltaX oleDeltaxy = .val 9 ∧
    readOle oleDeltaxy = .pts [(.val 0, .val 1), (.val 9, .val 1)] ∧
    (PyFloat.val 9 : PyFloat) ≠ .val 1 := by
  decide

theorem mulNat_val52 (i : Nat) :
    PyFloat.mulNat i (.val (mkRat 5 2)) = .val ((i : ℚ) * (5 / 2)) := by
  show PyFloat.val (mkRat ((i : ℤ) * (mkRat 5 2).num) (mkRat 5 2).den) = _
  have hnum : (mkRat 5 2).num = 5 := by decide
  have hden : (mkRat 5 2).den = 2 := by decide
  rw [hnum, hden, Rat.mkRat_eq_div]
  push_cast
  ring_nf

/-- C3 (amended): in implied-X mode the decoder synthesizes X values as
`index * deltaX`; deltaX is 1.0 unless a Header stream contains a line
that, after stripping and uppercasing, STARTS WITH `DELTAX` and splits on
tabs into EXACTLY two fields, in which case that line's second field is
parsed as deltaX (a parse failure on that line leaves the 1.0 default,
and a matching line with a different tab-field count is passed over); for
a container with `DELTAX<TAB>2.5` and K Y-values the X values are
`[0, 2.5, ..., 2.5*(K-1)]`. -/
theorem claim3_impliedx :
    (∀ (ole : OleFile) (yb : Bytes),
      ole.existsStream "X-Data" = false →
      ole.streamBytes "Y-Data" = some yb → decodeF32Stream yb ≠ [] →
      readOle ole = .pts (((List.range (decodeF32Stream yb).length).map
        (fun i => PyFloat.mulNat i (headerDeltaX ole))).zip
          (decodeF32Stream yb))) ∧
    (∀ (line : List Char) (rest : List (List Char)) (v : PyFloat),
      "DELTAX".data.isPrefixOf ((pyStripL line).map Char.toUpper) = true →
      (splitOnChar '\t' line).length = 2 →
      pyFloatL? ((splitOnChar '\t' line).getD 1 []) = some v →
      scanDeltaX (line :: rest) = v) ∧
    (∀ (line : List Char) (rest : List (List Char)),
      "DELTAX".data.isPrefixOf ((pyStripL line).map Char.toUpper) = true →
      (splitOnChar '\t' line).length = 2 →
      pyFloatL? ((splitOnChar '\t' line).getD 1 []) = none →
      scanDeltaX (line :: rest) = .val 1) ∧
    (∀ (line : List Char) (rest : List (List Char)),
      ("DELTAX".data.isPrefixOf ((pyStripL line).map Char.toUpper) = false ∨
        (splitOnChar '\t' line).length ≠ 2) →
      scanDeltaX (line :: rest) = scanDeltaX rest) ∧
    (∀ (ole : OleFile) (yb : Bytes) (K : Nat),
      ole.existsStream "X-Data" = false →
      ole.streamBytes "Y-Data" = some yb →
      ole.streamBytes "Header" = some (asciiBytes "DELTAX\t2.5\n") →
      (decodeF32Stream yb).length = K → K ≠ 0 →
      readOle ole = .pts (((List.range K).map
        (fun i : ℕ => PyFloat.val ((i : ℚ) * (5 / 2)))).zip
          (decodeF32Stream yb))) := by
  have himplied : ∀ (ole : OleFile) (yb : Bytes),
      ole.existsStream "X-Data" = false →
      ole.streamBytes "Y-Data" = some yb → decodeF32Stream yb ≠ [] →
      readOle ole = .pts (((List.range (decodeF32Stream yb).length).map
        (fun i => PyFloat.mulNat i (headerDeltaX ole))).zip
          (decodeF32Stream yb)) := by
    intro ole yb hX hy hyne
    have hro := readOle_implied ole yb hX hy
    have hne : (((List.range (decodeF32Stream yb).length).map
        (fun i => PyFloat.mulNat i (headerDeltaX ole))).zip
          (decodeF32Stream yb)).isEmpty = false := by
      simp [List.isEmpty_eq_false, hyne]
    rw [hne] at hro
    simpa using hro
  refine ⟨himplied, ?_, ?_, ?_, ?_⟩
  · intro line rest v hc hl hv
    rw [List.getD_eq_getElem (splitOnChar '\t' line) []
      (show 1 < (splitOnChar '\t' line).length by omega)] at hv
    rw [scanDeltaX]
    simp [hc, hl, hv]
  · intro line rest hc hl hv
    rw [List.getD_eq_getElem (splitOnChar '\t' line) []
      (show 1 < (splitOnChar '\t' line).length by omega)] at hv
    rw [scanDeltaX]
    simp [hc, hl, hv]
  · intro line rest h
    rcases h with hc | hl
    · conv_lhs => rw [scanDeltaX]
      simp [hc]
    · conv_lhs => rw [scanDeltaX]
      by_cases hcc : "DELTAX".data.isPrefixOf
          ((pyStripL line).map Char.toUpper) = true
      · simp only [hcc, if_true]
        rw [if_neg hl]
      · simp [hcc]
  · intro ole yb K hX hy hh hK hKne
    have hd : headerDeltaX ole = .val (mkRat 5 2) := by
      unfold headerDeltaX
      rw [hh]
      decide
    have hyne : decodeF32Stream yb ≠ [] := by
      intro hcon
      rw [hcon] at hK
      exact hKne (by simpa using hK.symm)
    have h1 := himplied ole yb hX hy hyne
    rw [hK] at h1
    have hmap : (List.range K).map (fun i => PyFloat.mulNat i (headerDeltaX ole))
        = (List.range K).map (fun i : ℕ => PyFloat.val ((i : ℚ) * (5 / 2))) :=
      List.map_congr_left (fun i _ => by rw [hd, mulNat_val52])
    rw [hmap] at h1
    exact h1

/-- Witness for the amended C3: DELTAX 2.5 with three 1.0 Y-values gives
X values 0, 2.5, 5. -/
theorem claim3_impliedx_witness :
    readOle oleDelta25 = .pts (((List.range 3).map
      (fun i : ℕ => PyFloat.val ((i : ℚ) * (5 / 2)))).zip
        (decodeF32Stream (one32 ++ one32 ++ one32))) :=
  claim3_impliedx.2.2.2.2 oleDelta25 (one32 ++ one32 ++ one32) 3
    (by decide) (by decide) (by decide) (by decide) (by decide)

theorem map_fst_setField (h : Header) (k v : String) :
    (setField h k v).map Prod.fst = h.map Prod.fst := by
  unfold setField
  rw [List.map_map]
  apply List.map_congr_left
  intro p _
  by_cases hp : p.1 = k <;> simp [hp]

theorem map_fst_assignMeta (h : Header) (key value : String) :
    (assignMeta h key value).map Prod.fst = h.map Prod.fst := by
  unfold assignMeta
  rw [List.map_map]
  apply List.map_congr_left
  intro p _
  by_cases hp : key = p.1 ∨ stripSpaces key = stripSpaces p.1 <;> simp [hp]

theorem map_fst_applyMetaLine (h : Header) (line : List Char) :
    (applyMetaLine h line).map Prod.fst = h.map Prod.fst := by
  have key : ∀ parts : List (List Char),
      (match parts with
        | [k, v] => assignMeta h (String.mk ((pyStripL k).map Char.toUpper))
            (String.mk (pyStripL v))
        | _ => h).map Prod.fst = h.map Prod.fst := by
    intro parts
    split
    · exact map_fst_assignMeta h _ _
    · rfl
  exact key _

theorem map_fst_foldl_meta (ls : List (List Char)) (h : Header) :
    (ls.foldl applyMetaLine h).map Prod.fst = h.map Prod.fst := by
  induction ls generalizing h with
  | nil => rfl
  | cons l t ih => rw [List.foldl_cons, ih, map_fst_applyMetaLine]

theorem map_fst_metaScanGo (ole : OleFile) (ss : List String) (h : Header) :
    (metaScanGo ole ss h).map Prod.fst = h.map Prod.fst := by
  induction ss generalizing h with
  | nil => rfl
  | cons s t ih =>
    rw [metaScanGo]
    split
    · exact ih h
    · show ((if _ then _ else metaScanGo ole t
          ((pySplitlines (decodeMeta _)).foldl applyMetaLine h)
          : Header)).map Prod.fst = h.map Prod.fst
      split
      · exact map_fst_foldl_meta _ h
      · rw [ih, map_fst_foldl_meta]

theorem map_fst_ite_setField (c : Prop) [Decidable c] (h : Header) (k v : String) :
    (if c then setField h k v else h).map Prod.fst = h.map Prod.fst := by
  split
  · exact map_fst_setField h k v
  · rfl

theorem map_fst_computeStats (h : Header) (pts : List (PyFloat × PyFloat)) :
    (computeStats h pts).map Prod.fst = h.map Prod.fst := by
  unfold computeStats
  split
  · rfl
  · simp only [map_fst_setField]

theorem map_fst_applyDefaults (h : Header) (f : File) :
    (applyDefaults h f).map Prod.fst = h.map Prod.fst := by
  unfold applyDefaults
  simp only [map_fst_ite_setField]

theorem map_fst_initHeader : initHeader.map Prod.fst = headerFields := by
  decide

theorem setField_cons (a b k v : String) (t : Header) :
    setField ((a, b) :: t) k v =
      (if a = k then (a, v) else (a, b)) :: setField t k v := by
  by_cases hak : a = k <;> simp [setField, hak]

theorem getField_cons (a b k : String) (t : Header) :
    getField ((a, b) :: t) k = if a = k then b else getField t k := by
  by_cases hak : a = k <;> simp [getField, List.find?_cons, hak]

theorem getField_setField_self (h : Header) (k v : String)
    (hk : k ∈ h.map Prod.fst) : getField (setField h k v) k = v := by
  induction h with
  | nil => simp at hk
  | cons p t ih =>
    rcases p with ⟨a, b⟩
    have hk2 : k = a ∨ k ∈ t.map Prod.fst := by simpa using hk
    rw [setField_cons]
    by_cases hak : a = k
    · rw [if_pos hak, getField_cons, if_pos hak]
    · rw [if_neg hak, getField_cons, if_neg hak]
      rcases hk2 with h1 | h1
      · exact absurd h1.symm hak
      · exact ih h1

theorem getField_setField_ne (h : Header) (k k' v : String) (hne : k ≠ k') :
    getField (setField h k' v) k = getField h k := by
  induction h with
  | nil => rfl
  | cons p t ih =>
    rcases p with ⟨a, b⟩
    rw [setField_cons]
    by_cases hak : a = k'
    · have hnk : a ≠ k := fun hh => hne (by rw [← hh, hak])
      rw [if_pos hak, getField_cons, getField_cons, if_neg hnk, if_neg hnk, ih]
    · rw [if_neg hak, getField_cons, getField_cons]
      by_cases hak2 : a = k
      · rw [if_pos hak2, if_pos hak2]
      · rw [if_neg hak2, if_neg hak2, ih]

theorem getField_mem (h : Header) (k : String) (hk : k ∈ h.map Prod.fst) :
    (k, getField h k) ∈ h := by
  induction h with
  | nil => simp at hk
  | cons p t ih =>
    rcases p with ⟨a, b⟩
    have hk2 : k = a ∨ k ∈ t.map Prod.fst := by simpa using hk
    rw [getField_cons]
    by_cases hak : a = k
    · rw [if_pos hak, ← hak]
      exact List.mem_cons_self (a, b) t
    · rw [if_neg hak]
      rcases hk2 with h1 | h1
      · exact absurd h1.symm hak
      · exact List.mem_cons_of_mem _ (ih h1)

theorem computeStats_eq (h : Header) (p : PyFloat × PyFloat)
    (rest : List (PyFloat × PyFloat)) :
    computeStats h (p :: rest) =
      setField (setField (setField (setField (setField (setField h
        "FIRSTX" (padLeft 10 (fmtFixed 4 p.1)))
        "LASTX" (padLeft 10 (fmtFixed 4 (((p :: rest).map Prod.fst).getLastD p.1))))
        "NPOINTS" (padLeft 7 (toString (p :: rest).length)))
        "FIRSTY" (padLeft 10 (fmtFixed 5 p.2)))
        "MAXY" (padLeft 10 (fmtFixed 5 (pyMaxList p.2 (rest.map Prod.snd)))))
        "MINY" (padLeft 10 (fmtFixed 5 (pyMinList p.2 (rest.map Prod.snd)))) := rfl

theorem computeStats_fields (h : Header) (hk : h.map Prod.fst = headerFields)
    (p : PyFloat × PyFloat) (rest : List (PyFloat × PyFloat)) :
    getField (computeStats h (p :: rest)) "FIRSTX"
        = padLeft 10 (fmtFixed 4 p.1) ∧
    getField (computeStats h (p :: rest)) "LASTX"
        = padLeft 10 (fmtFixed 4 (((p :: rest).map Prod.fst).getLastD p.1)) ∧
    getField (computeStats h (p :: rest)) "NPOINTS"
        = padLeft 7 (toString (p :: rest).length) ∧
    getField (computeStats h (p :: rest)) "FIRSTY"
        = padLeft 10 (fmtFixed 5 p.2) ∧
    getField (computeStats h (p :: rest)) "MAXY"
        = padLeft 10 (fmtFixed 5 (pyMaxList p.2 (rest.map Prod.snd))) ∧
    getField (computeStats h (p :: rest)) "MINY"
        = padLeft 10 (fmtFixed 5 (pyMinList p.2 (rest.map Prod.snd))) := by
  have hmem : ∀ K : String, K ∈ headerFields → K ∈ h.map Prod.fst := by
    intro K hK
    rw [hk]
    exact hK
  refine ⟨?_, ?_, ?_, ?_, ?_, ?_⟩
  · rw [computeStats_eq,
      getField_setField_ne _ "FIRSTX" "MINY" _ (by decide),
      getField_setField_ne _ "FIRSTX" "MAXY" _ (by decide),
      getField_setField_ne _ "FIRSTX" "FIRSTY" _ (by decide),
      getField_setField_ne _ "FIRSTX" "NPOINTS" _ (by decide),
      getField_setField_ne _ "FIRSTX" "LASTX" _ (by decide)]
    exact getField_setField_self _ _ _ (hmem "FIRSTX" (by decide))
  · rw [computeStats_eq,
      getField_setField_ne _ "LASTX" "MINY" _ (by decide),
      getField_setField_ne _ "LASTX" "MAXY" _ (by decide),
      getField_setField_ne _ "LASTX" "FIRSTY" _ (by decide),
      getField_setField_ne _ "LASTX" "NPOINTS" _ (by decide)]
    apply getField_setField_self
    rw [map_fst_setField, hk]
    decide
  · rw [computeStats_eq,
      getField_setField_ne _ "NPOINTS" "MINY" _ (by decide),
      getField_setField_ne _ "NPOINTS" "MAXY" _ (by decide),
      getField_setField_ne _ "NPOINTS" "FIRSTY" _ (by decide)]
    apply getField_setField_self
    rw [map_fst_setField, map_fst_setField, hk]
    decide
  · rw [computeStats_eq,
      getField_setField_ne _ "FIRSTY" "MINY" _ (by decide),
      getField_setField_ne _ "FIRSTY" "MAXY" _ (by decide)]
    apply getField_setField_self
    rw [map_fst_setField, map_fst_setField, map_fst_setField, hk]
    decide
  · rw [computeStats_eq,
      getField_setField_ne _ "MAXY" "MINY" _ (by decide)]
    apply getField_setField_self
    rw [map_fst_setField, map_fst_setField, map_fst_setField, map_fst_setField,
      hk]
    decide
  · rw [computeStats_eq]
    apply getField_setField_self
    rw [map_fst_setField, map_fst_setField, map_fst_setField, map_fst_setField,
      map_fst_setField, hk]
    decide

/-- Counterexample for C7: for the three-point series the synthesizer
stores NPOINTS as the count formatted right-aligned in a 7-character
field (`f"{len:7d}"`), i.e. `"      3"`, not the bare string `"3"` the
claim states. -/
theorem claim7_counterexample :
    getField (computeStats initHeader pts3) "NPOINTS" = "      3" ∧
    getField (computeStats initHeader pts3) "NPOINTS" ≠ "3" := by
  decide

/-- C7 (amended): for every non-empty point series the header synthesizer
overwrites FIRSTX, LASTX, NPOINTS, FIRSTY, MAXY, MINY from the series
itself (first x, last x, count, first y, max y, min y, in the source's
fixed-width formats: width 10 with 4 or 5 decimals, and the count
right-aligned in width 7), regardless of the incoming header values;
other fields are left untouched; for the series
[(1.0,0.5),(2.0,0.9),(3.0,0.1)] the stored values are NPOINTS
`"      3"`, FIRSTX `"    1.0000"`, LASTX `"    3.0000"`, FIRSTY
`"   0.50000"`, MAXY `"   0.90000"`, MINY `"   0.10000"`. -/
theorem claim7_stats (h : Header) (hk : h.map Prod.fst = headerFields)
    (p : PyFloat × PyFloat) (rest : List (PyFloat × PyFloat)) :
    (getField (computeStats h (p :: rest)) "FIRSTX"
        = padLeft 10 (fmtFixed 4 p.1) ∧
     getField (computeStats h (p :: rest)) "LASTX"
        = padLeft 10 (fmtFixed 4 (((p :: rest).map Prod.fst).getLastD p.1)) ∧
     getField (computeStats h (p :: rest)) "NPOINTS"
        = padLeft 7 (toString (p :: rest).length) ∧
     getField (computeStats h (p :: rest)) "FIRSTY"
        = padLeft 10 (fmtFixed 5 p.2) ∧
     getField (computeStats h (p :: rest)) "MAXY"
        = padLeft 10 (fmtFixed 5 (pyMaxList p.2 (rest.map Prod.snd))) ∧
     getField (computeStats h (p :: rest)) "MINY"
        = padLeft 10 (fmtFixed 5 (pyMinList p.2 (rest.map Prod.snd)))) ∧
    (∀ k : String, k ∈ headerFields →
      k ∉ (["FIRSTX", "LASTX", "NPOINTS", "FIRSTY", "MAXY",
        "MINY"] : List String) →
      getField (computeStats h (p :: rest)) k = getField h k) ∧
    (getField (computeStats h pts3) "NPOINTS" = "      3" ∧
     getField (computeStats h pts3) "FIRSTX" = "    1.0000" ∧
     getField (computeStats h pts3) "LASTX" = "    3.0000" ∧
     getField (computeStats h pts3) "FIRSTY" = "   0.50000" ∧
     getField (computeStats h pts3) "MAXY" = "   0.90000" ∧
     getField (computeStats h pts3) "MINY" = "   0.10000") := by
  refine ⟨computeStats_fields h hk p rest, ?_, ?_⟩
  · intro k _ hnot
    simp only [List.mem_cons, List.not_mem_nil, or_false, not_or] at hnot
    obtain ⟨n1, n2, n3, n4, n5, n6⟩ := hnot
    rw [computeStats_eq,
      getField_setField_ne _ k "MINY" _ n6,
      getField_setField_ne _ k "MAXY" _ n5,
      getField_setField_ne _ k "FIRSTY" _ n4,
      getField_setField_ne _ k "NPOINTS" _ n3,
      getField_setField_ne _ k "LASTX" _ n2,
      getField_setField_ne _ k "FIRSTX" _ n1]
  · have hg3 := computeStats_fields h hk (.val 1, .val (mkRat 1 2))
      [(.val 2, .val (mkRat 9 10)), (.val 3, .val (mkRat 1 10))]
    exact ⟨hg3.2.2.1.trans (by decide), hg3.1.trans (by decide),
      hg3.2.1.trans (by decide), hg3.2.2.2.1.trans (by decide),
      hg3.2.2.2.2.1.trans (by decide), hg3.2.2.2.2.2.trans (by decide)⟩

/-- Witness for C7: the computed statistics of the three-point series on
the freshly initialised header. -/
theorem claim7_stats_witness :
    getField (computeStats initHeader pts3) "NPOINTS" = "      3" ∧
    getField (computeStats initHeader pts3) "FIRSTX" = "    1.0000" ∧
    getField (computeStats initHeader pts3) "LASTX" = "    3.0000" ∧
    getField (computeStats initHeader pts3) "FIRSTY" = "   0.50000" ∧
    getField (computeStats initHeader pts3) "MAXY" = "   0.90000" ∧
    getField (computeStats initHeader pts3) "MINY" = "   0.10000" :=
  (claim7_stats initHeader (by decide) (.val 1, .val (mkRat 1 2))
    [(.val 2, .val (mkRat 9 10)), (.val 3, .val (mkRat 1 10))]).2.2

theorem headerLines_props (h : Header) (hk : h.map Prod.fst = headerFields) :
    (headerLines h).length = 18 ∧
    (∀ k ∈ headerFields, (k ++ "\t" ++ getField h k ++ "\n") ∈ headerLines h) := by
  constructor
  · show (h.map _).length = 18
    rw [List.length_map, ← List.length_map h Prod.fst, hk]
    decide
  · intro k hkf
    have hm := getField_mem h k (by rw [hk]; exact hkf)
    exact List.mem_map.mpr ⟨(k, getField h k), hm, rfl⟩

/-- C6: every successful conversion writes exactly the 18 header lines
`FIELDNAME<TAB>value<NL>` in the fixed field order (every field present
even when empty), then the literal `XYDATA` line, then one
`X<TAB>Y<NL>` line per decoded point with X at 4 and Y at 2 decimal
places. -/
theorem claim6_output (f : File) (pts : List (PyFloat × PyFloat))
    (hr : read_jws_file f = .ok pts) (hne : pts ≠ []) :
    ∃ h : Header,
      h.map Prod.fst = headerFields ∧
      convert_to_txt f = ⟨true,
        "Successfully converted " ++ toString pts.length ++ " data points",
        some (String.join (headerLines h) ++ "XYDATA\n" ++
          String.join (dataLines pts))⟩ ∧
      (headerLines h).length = 18 ∧
      (∀ k ∈ headerFields,
        (k ++ "\t" ++ getField h k ++ "\n") ∈ headerLines h) ∧
      (dataLines pts).length = pts.length ∧
      dataLines pts = pts.map
        (fun p => fmtFixed 4 p.1 ++ "\t" ++ fmtFixed 2 p.2 ++ "\n") := by
  have hkeys : (applyDefaults (computeStats
      (match f.ole with
        | some ole => metaScanGo ole metaStreams initHeader
        | none => initHeader) pts) f).map Prod.fst = headerFields := by
    rw [map_fst_applyDefaults, map_fst_computeStats]
    cases f.ole with
    | none => exact map_fst_initHeader
    | some ole => rw [map_fst_metaScanGo]; exact map_fst_initHeader
  have hp := headerLines_props _ hkeys
  refine ⟨_, hkeys, ?_, hp.1, hp.2, by simp [dataLines], rfl⟩
  unfold convert_to_txt
  rw [hr]
  simp only [List.isEmpty_eq_false.mpr hne, Bool.false_eq_true, if_false,
    outputContent]

set_option maxHeartbeats 4000000 in
/-- Witness for C6: the 20-row two-column text file converts with 18
header lines, the XYDATA line and 20 data lines. -/
theorem claim6_output_witness :
    ∃ h : Header,
      h.map Prod.fst = headerFields ∧
      convert_to_txt f20 = ⟨true,
        "Successfully converted " ++ toString pts20.length ++ " data points",
        some (String.join (headerLines h) ++ "XYDATA\n" ++
          String.join (dataLines pts20))⟩ ∧
      (headerLines h).length = 18 ∧
      (∀ k ∈ headerFields,
        (k ++ "\t" ++ getField h k ++ "\n") ∈ headerLines h) ∧
      (dataLines pts20).length = pts20.length ∧
      dataLines pts20 = pts20.map
        (fun p => fmtFixed 4 p.1 ++ "\t" ++ fmtFixed 2 p.2 ++ "\n") :=
  claim6_output f20 pts20 (by decide) (by decide)
